import Mathlib

/-!
Verification development for the new-release-wall repository.

Shallow embedding of the release-resolution, provider-reconciliation,
inclusion-classification, tracking-store merge, HTTP retry and moderation
logic of the Python sources, together with theorems settling the frozen
claims about them.  Dates are modelled as ISO `YYYY-MM-DD` strings compared
lexicographically, exactly as the Python code compares them with `<` and
`min`; dictionaries are modelled as association lists with Python dict
update semantics; the network is modelled as explicit fetch-result
parameters.
-/

namespace NRW

/-- Python truthiness of an optional string: `None` and the empty string are
falsy, every other string is truthy. -/
def pyTruthy : Option String → Bool
  | none => false
  | some s => s ≠ ""

/-! ## Release-date payloads

Shape of the `/movie/{id}/release_dates` JSON: a list of per-country
entries, each with an `iso_3166_1` country code and a list of releases
carrying an optional integer `type` and an optional `release_date` string.
-/

/-- One release entry: `release.get("type")` and `release.get("release_date")`. -/
structure ReleaseEntry where
  type : Option Nat
  release_date : Option String
deriving Repr, DecidableEq

/-- One per-country block of the release-dates payload. -/
structure CountryEntry where
  iso_3166_1 : String
  release_dates : List ReleaseEntry
deriving Repr, DecidableEq

/-- The date string the enhanced tracker extracts from an entry:
`release.get("release_date", "")[:10]`. -/
def entryDate (r : ReleaseEntry) : String := (r.release_date.getD "").take 10

/-- Minimum of a list of date strings, `none` on the empty list; the value
agrees with the Python builtin `min` under lexicographic string order. -/
def minD : List String → Option String
  | [] => none
  | d :: ds =>
    match minD ds with
    | none => some d
    | some m => some (min d m)

/-- Result record of `EnhancedMovieTracker.get_release_info`
(src/movie_tracker_enhanced.py lines 82-124). -/
structure ReleaseResult where
  premiere_date : Option String
  limited_date : Option String
  theatrical_date : Option String
  digital_date : Option String
  earliest_release : Option String
  has_digital : Bool
  release_types_found : List Nat
deriving Repr, DecidableEq

/-- The all-null result the function starts from (and returns when the
payload lacks a `results` key). -/
def emptyReleaseResult : ReleaseResult :=
  ⟨none, none, none, none, none, false, []⟩

/-- All dates collected into the bucket `all_dates[t]`: entries of type `t`
whose truncated date string is non-empty, in encounter order
(src/movie_tracker_enhanced.py lines 92-104). -/
def allDates (cs : List CountryEntry) (t : Nat) : List String :=
  cs.flatMap fun c =>
    c.release_dates.filterMap fun r =>
      if entryDate r ≠ "" ∧ r.type = some t then some (entryDate r) else none

/-- The `release_types_found` list: recognized types (1..4) with a
non-empty date, in first-encounter order, deduplicated
(src/movie_tracker_enhanced.py lines 101-104). -/
def typesFound (cs : List CountryEntry) : List Nat :=
  cs.foldl
    (fun acc c =>
      c.release_dates.foldl
        (fun acc r =>
          match r.type with
          | some t =>
            if entryDate r ≠ "" ∧ (t = 1 ∨ t = 2 ∨ t = 3 ∨ t = 4) ∧ t ∉ acc
            then acc ++ [t] else acc
          | none => acc)
        acc)
    []

/-- Embedding of `EnhancedMovieTracker.get_release_info`
(src/movie_tracker_enhanced.py lines 75-126).  The argument is
`data.get("results")`: `none` models a payload without a `results` key.
Per-type fields take the earliest date of their bucket, `earliest_release`
the earliest over all four buckets, and `has_digital` is the truthiness of
`digital_date`. -/
def get_release_info (results : Option (List CountryEntry)) : ReleaseResult :=
  match results with
  | none => emptyReleaseResult
  | some cs =>
    let d1 := allDates cs 1
    let d2 := allDates cs 2
    let d3 := allDates cs 3
    let d4 := allDates cs 4
    let digital := minD d4
    { premiere_date := minD d1
      limited_date := minD d2
      theatrical_date := minD d3
      digital_date := digital
      earliest_release := minD (d1 ++ d2 ++ d3 ++ d4)
      has_digital := pyTruthy digital
      release_types_found := typesFound cs }

/-! ### Lemmas about `minD` -/

/-- Combination of two optional minima, mirroring how the minimum of a
concatenation decomposes. -/
def omin : Option String → Option String → Option String
  | none, b => b
  | some a, none => some a
  | some a, some b => some (min a b)

theorem minD_eq_none {l : List String} : minD l = none ↔ l = [] := by
  cases l with
  | nil => simp [minD]
  | cons d ds =>
    simp only [minD]
    cases h : minD ds <;> simp

theorem minD_cons (d : String) (ds : List String) :
    minD (d :: ds) =
      match minD ds with
      | none => some d
      | some m => some (min d m) := rfl

theorem minD_append (l₁ l₂ : List String) :
    minD (l₁ ++ l₂) = omin (minD l₁) (minD l₂) := by
  induction l₁ with
  | nil =>
    cases h : minD l₂ <;> simp [minD, omin, h]
  | cons d ds ih =>
    rw [List.cons_append, minD_cons, ih, minD_cons]
    cases h₁ : minD ds <;> cases h₂ : minD l₂ <;>
      simp [omin, min_assoc]

theorem minD_filterMap_four (a b c d : Option String) :
    minD (List.filterMap id [a, b, c, d]) = omin (omin (omin a b) c) d := by
  rcases a with _ | a <;> rcases b with _ | b <;>
    rcases c with _ | c <;> rcases d with _ | d <;>
    simp [minD, omin, min_assoc]

theorem get_release_info_some_def (cs : List CountryEntry) :
    get_release_info (some cs) =
      { premiere_date := minD (allDates cs 1)
        limited_date := minD (allDates cs 2)
        theatrical_date := minD (allDates cs 3)
        digital_date := minD (allDates cs 4)
        earliest_release :=
          minD (allDates cs 1 ++ allDates cs 2 ++ allDates cs 3 ++ allDates cs 4)
        has_digital := pyTruthy (minD (allDates cs 4))
        release_types_found := typesFound cs } := rfl

theorem allDates_eq_nil {cs : List CountryEntry} {t : Nat} :
    allDates cs t = [] ↔
      ∀ c ∈ cs, ∀ r ∈ c.release_dates, ¬(entryDate r ≠ "" ∧ r.type = some t) := by
  simp only [allDates, List.flatMap_eq_nil_iff, List.filterMap_eq_nil_iff]
  constructor
  · intro h c hc r hr hcond
    have := h c hc r hr
    simp [hcond.1, hcond.2] at this
  · intro h c hc r hr
    by_cases hcond : entryDate r ≠ "" ∧ r.type = some t
    · exact absurd hcond (h c hc r hr)
    · simp only [ite_eq_right_iff]
      intro hc2
      exact absurd hc2 hcond

/-- C1: for every release-date payload, the earliest-release watermark of
`get_release_info` equals the minimum of the per-type minimum dates over
all types that have at least one entry, and it is null exactly when the
payload contains no recognized-type entry with a non-empty date. -/
theorem C1_earliest_release_watermark (results : Option (List CountryEntry)) :
    (get_release_info results).earliest_release =
      minD (List.filterMap id
        [(get_release_info results).premiere_date,
         (get_release_info results).limited_date,
         (get_release_info results).theatrical_date,
         (get_release_info results).digital_date])
    ∧ ((get_release_info results).earliest_release = none ↔
        ∀ c ∈ results.getD [], ∀ r ∈ c.release_dates,
          ∀ t, r.type = some t → (t = 1 ∨ t = 2 ∨ t = 3 ∨ t = 4) →
            entryDate r = "") := by
  cases results with
  | none =>
    refine ⟨rfl, ?_⟩
    simp [get_release_info, emptyReleaseResult]
  | some cs =>
    rw [get_release_info_some_def]
    constructor
    · rw [minD_filterMap_four, minD_append, minD_append, minD_append]
    · rw [minD_eq_none, List.append_eq_nil, List.append_eq_nil, List.append_eq_nil]
      rw [allDates_eq_nil, allDates_eq_nil, allDates_eq_nil, allDates_eq_nil]
      constructor
      · rintro ⟨⟨⟨h1, h2⟩, h3⟩, h4⟩ c hc r hr t ht htmem
        by_contra hne
        rcases htmem with rfl | rfl | rfl | rfl
        · exact h1 c hc r hr ⟨hne, ht⟩
        · exact h2 c hc r hr ⟨hne, ht⟩
        · exact h3 c hc r hr ⟨hne, ht⟩
        · exact h4 c hc r hr ⟨hne, ht⟩
      · intro h
        refine ⟨⟨⟨?_, ?_⟩, ?_⟩, ?_⟩ <;>
          · intro c hc r hr hcond
            exact hcond.1 (h c hc r hr _ hcond.2 (by simp))

/-- Witness for C1 at a concrete payload: a US block with a theatrical and
a digital date plus an unrecognized type-5 entry. -/
theorem C1_earliest_release_watermark_witness :
    ((get_release_info (some [⟨"US",
        [⟨some 3, some "2024-01-05"⟩, ⟨some 4, some "2024-02-10"⟩,
         ⟨some 5, some "2023-12-01"⟩]⟩])).earliest_release =
      minD (List.filterMap id
        [(get_release_info (some [⟨"US",
            [⟨some 3, some "2024-01-05"⟩, ⟨some 4, some "2024-02-10"⟩,
             ⟨some 5, some "2023-12-01"⟩]⟩])).premiere_date,
         (get_release_info (some [⟨"US",
            [⟨some 3, some "2024-01-05"⟩, ⟨some 4, some "2024-02-10"⟩,
             ⟨some 5, some "2023-12-01"⟩]⟩])).limited_date,
         (get_release_info (some [⟨"US",
            [⟨some 3, some "2024-01-05"⟩, ⟨some 4, some "2024-02-10"⟩,
             ⟨some 5, some "2023-12-01"⟩]⟩])).theatrical_date,
         (get_release_info (some [⟨"US",
            [⟨some 3, some "2024-01-05"⟩, ⟨some 4, some "2024-02-10"⟩,
             ⟨some 5, some "2023-12-01"⟩]⟩])).digital_date]))
    ∧ ((get_release_info (some [⟨"US",
          [⟨some 3, some "2024-01-05"⟩, ⟨some 4, some "2024-02-10"⟩,
           ⟨some 5, some "2023-12-01"⟩]⟩])).earliest_release = none ↔
        ∀ c ∈ (some [(⟨"US",
            [⟨some 3, some "2024-01-05"⟩, ⟨some 4, some "2024-02-10"⟩,
             ⟨some 5, some "2023-12-01"⟩]⟩ : CountryEntry)]).getD [],
          ∀ r ∈ c.release_dates,
          ∀ t, r.type = some t → (t = 1 ∨ t = 2 ∨ t = 3 ∨ t = 4) →
            entryDate r = "") :=
  C1_earliest_release_watermark
    (some [⟨"US", [⟨some 3, some "2024-01-05"⟩, ⟨some 4, some "2024-02-10"⟩,
                   ⟨some 5, some "2023-12-01"⟩]⟩])

/-! ## Region-restricted resolution (C2)

Three region-restricted resolvers appear in the sources:
`get_us_digital_date` (src/new_release_wall.py lines 111-122),
`MovieTracker.get_release_info` (src/movie_tracker.py lines 70-102, fixed
to the `US` region) and `get_release_types` (src/scraper_core.py lines
32-41).
-/

/-- Truthiness filter applied to the candidate list in
`get_us_digital_date`: `[c for c in candidates if c]`. -/
def truthyOpt : Option String → Option String
  | none => none
  | some s => if s = "" then none else some s

/-- The candidate digital/TV dates of one country block:
`[d.get("release_date") for d in dates if d.get("type") in (4, 6)]`,
followed by the truthiness filter. -/
def usDigitalCandidates (c : CountryEntry) : List String :=
  ((c.release_dates.filter fun d => d.type = some 4 ∨ d.type = some 6).map
    (·.release_date)).filterMap truthyOpt

/-- Embedding of `get_us_digital_date` (src/new_release_wall.py lines
111-122): scan the per-country blocks in order, skip blocks whose country
code differs from `region`, and return the earliest type-4/6 date of the
first matching block that has any, truncated to ten characters. -/
def get_us_digital_date (region : String) : List CountryEntry → Option String
  | [] => none
  | c :: rest =>
    if c.iso_3166_1 ≠ region then get_us_digital_date region rest
    else
      match minD (usDigitalCandidates c) with
      | some m => some (m.take 10)
      | none => get_us_digital_date region rest

/-- Result record of `MovieTracker.get_release_info`
(src/movie_tracker.py lines 77-81). -/
structure TrackerReleaseResult where
  theatrical_date : Option String
  digital_date : Option String
  has_digital : Bool
deriving Repr, DecidableEq

/-- One-entry update of the tracker result (src/movie_tracker.py lines
86-96): keep the earlier date per type, treating a `None` or empty stored
date as absent, and set `has_digital` on any type-4 entry. -/
def trackerUpdate (acc : TrackerReleaseResult) (r : ReleaseEntry) : TrackerReleaseResult :=
  let date := (r.release_date.getD "").take 10
  if r.type = some 3 then
    { acc with
      theatrical_date :=
        match acc.theatrical_date with
        | none => some date
        | some s => if s = "" then some date else if date < s then some date else some s }
  else if r.type = some 4 then
    { acc with
      digital_date :=
        match acc.digital_date with
        | none => some date
        | some s => if s = "" then some date else if date < s then some date else some s
      has_digital := true }
  else acc

/-- Embedding of `MovieTracker.get_release_info` (src/movie_tracker.py
lines 70-102): only the first country block whose code is `"US"` is
processed (the loop breaks after it); with no such block the result is the
all-null record. -/
def tracker_get_release_info (results : Option (List CountryEntry)) : TrackerReleaseResult :=
  match results with
  | none => ⟨none, none, false⟩
  | some cs =>
    match cs.find? fun c => c.iso_3166_1 == "US" with
    | none => ⟨none, none, false⟩
    | some c => c.release_dates.foldl trackerUpdate ⟨none, none, false⟩

/-- Model of the Python `str.upper()` call on ASCII region codes:
upper-case every character. -/
def pyUpper (s : String) : String := ⟨s.data.map Char.toUpper⟩

/-- Embedding of `get_release_types` (src/scraper_core.py lines 32-41):
collect the integer release types of every country block whose code equals
`region.upper()`. -/
def get_release_types (region : String) (results : List CountryEntry) : List Nat :=
  (results.filter fun e => e.iso_3166_1 == pyUpper region).flatMap fun e =>
    e.release_dates.filterMap (·.type)

/-! ### C2 helper lemmas -/

/-- `get_us_digital_date` on the blocks matching the region, without the
skip test. -/
def usDigitalOnMatching : List CountryEntry → Option String
  | [] => none
  | c :: rest =>
    match minD (usDigitalCandidates c) with
    | some m => some (m.take 10)
    | none => usDigitalOnMatching rest

theorem get_us_digital_date_eq_filter (region : String) (l : List CountryEntry) :
    get_us_digital_date region l =
      usDigitalOnMatching (l.filter fun c => c.iso_3166_1 == region) := by
  induction l with
  | nil => rfl
  | cons c rest ih =>
    by_cases h : c.iso_3166_1 = region
    · simp only [get_us_digital_date, h, ne_eq, not_true_eq_false, if_false,
        List.filter_cons, beq_self_eq_true, if_true]
      simp only [usDigitalOnMatching]
      cases minD (usDigitalCandidates c) <;> simp [ih]
    · simp only [get_us_digital_date, ne_eq, h, not_false_eq_true, if_true,
        List.filter_cons]
      rw [if_neg (by simpa using h)]
      exact ih

theorem find?_eq_head_filter {α : Type} (p : α → Bool) (l : List α) :
    l.find? p = (l.filter p).head? := by
  induction l with
  | nil => rfl
  | cons a rest ih =>
    by_cases h : p a
    · simp [List.find?, List.filter_cons, h]
    · simp only [List.find?, List.filter_cons]
      rw [if_neg (by simpa using h)]
      simp only [Bool.not_eq_true] at h
      rw [h]
      exact ih

/-- C2: region-restricted resolution depends only on the country blocks
whose code equals the requested region (for `get_release_types`, the
requested region in canonical upper-case form, which the function applies
itself): payloads agreeing on the matching blocks give identical outputs,
and with no matching block every resolver reports no data — null dates,
`has_digital = false`, an empty type list — never data from another
country. -/
theorem C2_region_isolation (region : String) (hreg : pyUpper region = region)
    (p q : List CountryEntry)
    (hagree : p.filter (fun c => c.iso_3166_1 == region) =
              q.filter (fun c => c.iso_3166_1 == region)) :
    (get_us_digital_date region p = get_us_digital_date region q)
    ∧ (get_release_types region p = get_release_types region q)
    ∧ (region = "US" →
        tracker_get_release_info (some p) = tracker_get_release_info (some q))
    ∧ (p.filter (fun c => c.iso_3166_1 == region) = [] →
        get_us_digital_date region p = none
        ∧ get_release_types region p = []
        ∧ (region = "US" → tracker_get_release_info (some p) = ⟨none, none, false⟩)) := by
  refine ⟨?_, ?_, ?_, ?_⟩
  · rw [get_us_digital_date_eq_filter, get_us_digital_date_eq_filter, hagree]
  · simp only [get_release_types, hreg, hagree]
  · intro hUS
    subst hUS
    simp only [tracker_get_release_info, find?_eq_head_filter, hagree]
  · intro hempty
    refine ⟨?_, ?_, ?_⟩
    · rw [get_us_digital_date_eq_filter, hempty]
      rfl
    · simp only [get_release_types, hreg, hempty, List.flatMap_nil]
    · intro hUS
      subst hUS
      simp only [tracker_get_release_info, find?_eq_head_filter, hempty]
      rfl

/-- Witness for C2 at region "US": the payloads agree on their single US
block but differ on a French block carrying an earlier digital date, and
all three resolvers coincide on them. -/
theorem C2_region_isolation_witness :
    (get_us_digital_date "US"
        [⟨"FR", [⟨some 4, some "2023-01-01"⟩]⟩, ⟨"US", [⟨some 4, some "2024-02-10"⟩]⟩] =
      get_us_digital_date "US" [⟨"US", [⟨some 4, some "2024-02-10"⟩]⟩])
    ∧ (get_release_types "US"
        [⟨"FR", [⟨some 4, some "2023-01-01"⟩]⟩, ⟨"US", [⟨some 4, some "2024-02-10"⟩]⟩] =
      get_release_types "US" [⟨"US", [⟨some 4, some "2024-02-10"⟩]⟩])
    ∧ (tracker_get_release_info (some
        [⟨"FR", [⟨some 4, some "2023-01-01"⟩]⟩, ⟨"US", [⟨some 4, some "2024-02-10"⟩]⟩]) =
      tracker_get_release_info (some [⟨"US", [⟨some 4, some "2024-02-10"⟩]⟩])) := by
  have h := C2_region_isolation "US" (by decide)
    [⟨"FR", [⟨some 4, some "2023-01-01"⟩]⟩, ⟨"US", [⟨some 4, some "2024-02-10"⟩]⟩]
    [⟨"US", [⟨some 4, some "2024-02-10"⟩]⟩] (by decide)
  exact ⟨h.1, h.2.1, h.2.2.1 rfl⟩

/-! ## Tracking store and its merge operations (C3, C4, C5)

The enhanced tracker keeps `db["movies"]`, a JSON object mapping the
stringified TMDB id to a movie record.  It is modelled as an association
list with Python-dict lookup semantics; the network fetches performed
inside the loops (`get_release_info`, `get_justwatch_providers`,
`get_omdb_rt_score`) are passed in as explicit fetch-result functions, and
`datetime.now().isoformat()[:10]` as an explicit `today` string.
-/

/-- Raw provider lists of `get_justwatch_providers`
(src/movie_tracker_enhanced.py lines 139-143): the US `rent`, `buy` and
`flatrate` arrays. -/
structure ProviderSnapshot where
  rent : List String
  buy : List String
  flatrate : List String
deriving Repr, DecidableEq

/-- `has_digital_providers = any(providers.values())`
(src/movie_tracker_enhanced.py line 146). -/
def has_digital_providers (p : ProviderSnapshot) : Bool :=
  !p.rent.isEmpty || !p.buy.isEmpty || !p.flatrate.isEmpty

/-- `provider_count = sum(len(p) for p in providers.values())`
(src/movie_tracker_enhanced.py line 151). -/
def providerCount (p : ProviderSnapshot) : Nat :=
  p.rent.length + p.buy.length + p.flatrate.length

/-- One record of `db["movies"]` as written by the enhanced tracker.  The
two trailing fields are absent until a provider check or detection writes
them, hence optional with `none` as the absent state (the code reads them
with `.get(..., False)` / writes them unconditionally). -/
structure Movie where
  title : String
  tmdb_id : Nat
  premiere_date : Option String
  limited_date : Option String
  theatrical_date : Option String
  digital_date : Option String
  earliest_release : Option String
  release_types_found : List Nat
  provider_count : Nat
  has_providers : Bool
  detected_via_providers : Bool
  rt_score : Option Int
  status : String
  added_to_db : String
  last_checked : String
  last_provider_check : String
  has_providers_previously : Option Bool := none
  digital_detected_date : Option String := none
deriving Repr, DecidableEq

/-- The `movies` object: stringified id to record, insertion-ordered. -/
abbrev Store := List (String × Movie)

/-- Python dict lookup on the store. -/
def findMovie : Store → String → Option Movie
  | [], _ => none
  | (k, m) :: rest, key => if k = key then some m else findMovie rest key

/-- One discovered movie as returned by `_discover_movies`: its TMDB id and
title (the only fields the merge reads). -/
structure DiscoveredMovie where
  id : Nat
  title : String
deriving Repr, DecidableEq

/-- The per-title fetch results used inside the merge loop, keyed by TMDB
id: release info (`none` models a fetch error), provider lists and OMDb
critic score. -/
structure Fetch where
  rel : Nat → Option ReleaseResult
  prov : Nat → ProviderSnapshot
  rt : Nat → Option Int

/-- Deduplication by TMDB id with a `seen_ids` set, keeping the first
occurrence (src/movie_tracker_enhanced.py lines 461-467). -/
def dedupById (seen : List Nat) : List DiscoveredMovie → List DiscoveredMovie
  | [] => []
  | m :: ms =>
    if m.id ∈ seen then dedupById seen ms
    else m :: dedupById (m.id :: seen) ms

/-- The record inserted for a newly discovered movie
(src/movie_tracker_enhanced.py lines 483-500). -/
def mkRecord (today : String) (m : DiscoveredMovie) (ri : ReleaseResult)
    (pv : ProviderSnapshot) (score : Option Int) : Movie :=
  { title := m.title
    tmdb_id := m.id
    premiere_date := ri.premiere_date
    limited_date := ri.limited_date
    theatrical_date := ri.theatrical_date
    digital_date := ri.digital_date
    earliest_release := ri.earliest_release
    release_types_found := ri.release_types_found
    provider_count := providerCount pv
    has_providers := has_digital_providers pv
    detected_via_providers := has_digital_providers pv && !ri.has_digital
    rt_score := score
    status := if ri.has_digital || has_digital_providers pv then "resolved" else "tracking"
    added_to_db := today
    last_checked := today
    last_provider_check := today }

/-- One iteration of the `add_new_releases` insertion loop
(src/movie_tracker_enhanced.py lines 470-504): skip ids already in the
store, skip titles whose release fetch failed or has no earliest release,
insert the fresh record otherwise. -/
def addStep (f : Fetch) (today : String) (db : Store) (m : DiscoveredMovie) : Store :=
  if (findMovie db (toString m.id)).isSome then db
  else
    match f.rel m.id with
    | some ri =>
      if pyTruthy ri.earliest_release then
        db ++ [(toString m.id, mkRecord today m ri (f.prov m.id) (f.rt m.id))]
      else db
    | none => db

/-- Embedding of `EnhancedMovieTracker.add_new_releases`
(src/movie_tracker_enhanced.py lines 435-507): deduplicate the discovered
list by id, then run the insertion loop.  `comprehensive_bootstrap`
(lines 214-268) performs the identical dedup-then-insert merge on its own
discovery list. -/
def add_new_releases (f : Fetch) (today : String)
    (movies : List DiscoveredMovie) (db : Store) : Store :=
  (dedupById [] movies).foldl (addStep f today) db

/-- Per-record update of `check_providers_for_tracking_movies`
(src/movie_tracker_enhanced.py lines 316-333), applied to each record with
status `"tracking"`: refresh the provider fields, transition to
`"resolved"` via providers when providers appeared and the cached
previous-providers flag was falsy, then store the new flag. -/
def providerCheckMovie (pv : ProviderSnapshot) (today : String) (m : Movie) : Movie :=
  let m1 := { m with
    provider_count := providerCount pv
    has_providers := has_digital_providers pv
    last_provider_check := today }
  let m2 :=
    if has_digital_providers pv && !(m.has_providers_previously.getD false) then
      { m1 with
        status := "resolved"
        detected_via_providers := true
        digital_detected_date := some today }
    else m1
  { m2 with has_providers_previously := some (has_digital_providers pv) }

/-- Embedding of `check_providers_for_tracking_movies`
(src/movie_tracker_enhanced.py lines 304-338): every record whose status
is `"tracking"` is updated in place from its fresh provider snapshot;
other records are untouched. -/
def check_providers_for_tracking_movies (pf : String → ProviderSnapshot)
    (today : String) (db : Store) : Store :=
  db.map fun kv =>
    (kv.1, if kv.2.status = "tracking" then providerCheckMovie (pf kv.1) today kv.2 else kv.2)

/-- Per-record update of `check_tmdb_digital_dates`
(src/movie_tracker_enhanced.py lines 515-526): a tracking record whose
fresh release info has a digital date, while the stored `digital_date` is
falsy, takes the new date and becomes `"resolved"`. -/
def digitalCheckMovie (ri : Option ReleaseResult) (today : String) (m : Movie) : Movie :=
  match ri with
  | some r =>
    if r.has_digital && !(pyTruthy m.digital_date) then
      { m with digital_date := r.digital_date, status := "resolved", last_checked := today }
    else m
  | none => m

/-- Embedding of `check_tmdb_digital_dates`
(src/movie_tracker_enhanced.py lines 509-528). -/
def check_tmdb_digital_dates (rf : String → Option ReleaseResult)
    (today : String) (db : Store) : Store :=
  db.map fun kv =>
    (kv.1, if kv.2.status = "tracking" then digitalCheckMovie (rf kv.1) today kv.2 else kv.2)

/-- Per-record update of `MovieTracker.check_tracking_movies`
(src/movie_tracker.py lines 255-267): a tracking record goes digital when
the fresh info has a digital date; in every case `last_checked` is
stamped. -/
def trackingCheckMovie (ri : Option TrackerReleaseResult) (today : String) (m : Movie) : Movie :=
  match ri with
  | some r =>
    if r.has_digital then
      { m with digital_date := r.digital_date, status := "resolved", last_checked := today }
    else { m with last_checked := today }
  | none => { m with last_checked := today }

/-- Embedding of `MovieTracker.check_tracking_movies`
(src/movie_tracker.py lines 243-271). -/
def check_tracking_movies (rf : String → Option TrackerReleaseResult)
    (today : String) (db : Store) : Store :=
  db.map fun kv =>
    (kv.1, if kv.2.status = "tracking" then trackingCheckMovie (rf kv.1) today kv.2 else kv.2)

/-- One run of the tracker, with its fetch results: the bootstrap merge,
the daily add merge, the provider check, the enhanced digital-date check
and the plain digital-date check. -/
inductive Op where
  | bootstrap (f : Fetch) (today : String) (movies : List DiscoveredMovie)
  | addNew (f : Fetch) (today : String) (movies : List DiscoveredMovie)
  | checkProviders (pf : String → ProviderSnapshot) (today : String)
  | checkDigital (rf : String → Option ReleaseResult) (today : String)
  | checkTracking (rf : String → Option TrackerReleaseResult) (today : String)

/-- Effect of one run on the store. -/
def applyOp (db : Store) : Op → Store
  | .bootstrap f today ms => add_new_releases f today ms db
  | .addNew f today ms => add_new_releases f today ms db
  | .checkProviders pf today => check_providers_for_tracking_movies pf today db
  | .checkDigital rf today => check_tmdb_digital_dates rf today db
  | .checkTracking rf today => check_tracking_movies rf today db

/-- A sequence of runs. -/
def runOps (db : Store) (ops : List Op) : Store := ops.foldl applyOp db

/-! ### Store lemmas -/

theorem findMovie_append_of_some {db : Store} {k : String} {v : Movie}
    (l : Store) (h : findMovie db k = some v) :
    findMovie (db ++ l) k = some v := by
  induction db with
  | nil => simp [findMovie] at h
  | cons kv rest ih =>
    obtain ⟨k', m'⟩ := kv
    by_cases hk : k' = k
    · simp only [findMovie, hk, if_true] at h ⊢
      simpa using h
    · simp only [findMovie, hk, if_false, List.cons_append] at h ⊢
      exact ih h

theorem findMovie_append_self {db : Store} {k : String}
    (v : Movie) (h : findMovie db k = none) :
    findMovie (db ++ [(k, v)]) k = some v := by
  induction db with
  | nil => simp [findMovie]
  | cons kv rest ih =>
    obtain ⟨k', m'⟩ := kv
    by_cases hk : k' = k
    · simp [findMovie, hk] at h
    · simp only [findMovie, hk, if_false] at h
      simp only [List.cons_append, findMovie, if_neg hk]
      exact ih h

theorem findMovie_eq_none_iff {db : Store} {k : String} :
    findMovie db k = none ↔ k ∉ db.map Prod.fst := by
  induction db with
  | nil => simp [findMovie]
  | cons kv rest ih =>
    obtain ⟨k', m'⟩ := kv
    by_cases hk : k' = k
    · simp [findMovie, hk]
    · simp [findMovie, hk, ih, Ne.symm hk]

theorem addStep_preserves {db : Store} {k : String} {v : Movie}
    (f : Fetch) (today : String) (m : DiscoveredMovie)
    (h : findMovie db k = some v) :
    findMovie (addStep f today db m) k = some v := by
  unfold addStep
  split
  · exact h
  · split
    · split
      · exact findMovie_append_of_some _ h
      · exact h
    · exact h

theorem foldl_addStep_preserves {k : String} {v : Movie}
    (f : Fetch) (today : String) (l : List DiscoveredMovie) :
    ∀ {db : Store}, findMovie db k = some v →
      findMovie (l.foldl (addStep f today) db) k = some v := by
  induction l with
  | nil => intro db h; exact h
  | cons m ms ih =>
    intro db h
    exact ih (addStep_preserves f today m h)

theorem findMovie_mapUpdate (g : String → Movie → Movie) (db : Store) (k : String) :
    findMovie (db.map fun kv => (kv.1, g kv.1 kv.2)) k =
      (findMovie db k).map (g k) := by
  induction db with
  | nil => rfl
  | cons kv rest ih =>
    obtain ⟨k', m'⟩ := kv
    by_cases hk : k' = k
    · subst hk
      simp [findMovie]
    · simp [findMovie, hk, ih]

/-- C3: availability is monotonic.  For every starting store and every
sequence of runs — bootstrap, daily add, provider check, either
digital-date check — a record whose status is `"resolved"` stays present
and `"resolved"` after the whole sequence; no operation ever sets it back
to `"tracking"`. -/
theorem C3_status_monotonic (ops : List Op) (db : Store) (k : String) (m : Movie)
    (hfind : findMovie db k = some m) (hres : m.status = "resolved") :
    ∃ m', findMovie (runOps db ops) k = some m' ∧ m'.status = "resolved" := by
  induction ops generalizing db m with
  | nil => exact ⟨m, hfind, hres⟩
  | cons op rest ih =>
    have step : ∃ m', findMovie (applyOp db op) k = some m' ∧ m'.status = "resolved" := by
      cases op with
      | bootstrap f today ms =>
        exact ⟨m, foldl_addStep_preserves f today _ hfind, hres⟩
      | addNew f today ms =>
        exact ⟨m, foldl_addStep_preserves f today _ hfind, hres⟩
      | checkProviders pf today =>
        refine ⟨m, ?_, hres⟩
        show findMovie (check_providers_for_tracking_movies pf today db) k = some m
        rw [check_providers_for_tracking_movies,
          findMovie_mapUpdate
            (fun k m => if m.status = "tracking" then providerCheckMovie (pf k) today m else m)
            db k, hfind]
        simp [hres]
      | checkDigital rf today =>
        refine ⟨m, ?_, hres⟩
        show findMovie (check_tmdb_digital_dates rf today db) k = some m
        rw [check_tmdb_digital_dates,
          findMovie_mapUpdate
            (fun k m => if m.status = "tracking" then digitalCheckMovie (rf k) today m else m)
            db k, hfind]
        simp [hres]
      | checkTracking rf today =>
        refine ⟨m, ?_, hres⟩
        show findMovie (check_tracking_movies rf today db) k = some m
        rw [check_tracking_movies,
          findMovie_mapUpdate
            (fun k m => if m.status = "tracking" then trackingCheckMovie (rf k) today m else m)
            db k, hfind]
        simp [hres]
    obtain ⟨m', hfind', hres'⟩ := step
    exact ih (applyOp db op) m' hfind' hres'

/-- A concrete record still in the `"tracking"` state, used by witnesses. -/
def sampleTracking : Movie :=
  { title := "Indie Film"
    tmdb_id := 42
    premiere_date := some "2024-01-05"
    limited_date := none
    theatrical_date := none
    digital_date := none
    earliest_release := some "2024-01-05"
    release_types_found := [1]
    provider_count := 0
    has_providers := false
    detected_via_providers := false
    rt_score := none
    status := "tracking"
    added_to_db := "2024-01-10"
    last_checked := "2024-01-10"
    last_provider_check := "2024-01-10" }

/-- A concrete record already `"resolved"`, used by witnesses. -/
def sampleResolved : Movie :=
  { title := "Big Film"
    tmdb_id := 9
    premiere_date := none
    limited_date := none
    theatrical_date := some "2024-01-05"
    digital_date := some "2024-02-10"
    earliest_release := some "2024-01-05"
    release_types_found := [3, 4]
    provider_count := 2
    has_providers := true
    detected_via_providers := false
    rt_score := some 91
    status := "resolved"
    added_to_db := "2024-01-10"
    last_checked := "2024-01-10"
    last_provider_check := "2024-01-10" }

/-- A concrete fetch-result bundle, used by witnesses: every release lookup
returns a digital release, providers and critic scores are empty. -/
def sampleFetch : Fetch :=
  { rel := fun _ => some ⟨none, none, none, some "2024-02-10", some "2024-02-10", true, [4]⟩
    prov := fun _ => ⟨[], [], []⟩
    rt := fun _ => none }

/-- Witness for C3: a resolved record survives a provider check followed by
a daily add merge, still resolved. -/
theorem C3_status_monotonic_witness :
    ∃ m', findMovie
        (runOps [("9", sampleResolved)]
          [Op.checkProviders (fun _ => ⟨[], [], []⟩) "2024-03-01",
           Op.addNew sampleFetch "2024-03-01" [⟨7, "New Film"⟩]])
        "9" = some m'
      ∧ m'.status = "resolved" :=
  C3_status_monotonic
    [Op.checkProviders (fun _ => ⟨[], [], []⟩) "2024-03-01",
     Op.addNew sampleFetch "2024-03-01" [⟨7, "New Film"⟩]]
    [("9", sampleResolved)] "9" sampleResolved rfl rfl

/-- C4: a tracking record whose cached previous-providers flag is falsy
and whose fresh provider snapshot is non-empty is marked resolved via
providers by the provider check, with the check date stamped. -/
theorem C4_resolved_via_providers (pf : String → ProviderSnapshot) (today : String)
    (db : Store) (k : String) (m : Movie)
    (hfind : findMovie db k = some m)
    (htrack : m.status = "tracking")
    (hflag : m.has_providers_previously.getD false = false)
    (hprov : has_digital_providers (pf k) = true) :
    ∃ m', findMovie (check_providers_for_tracking_movies pf today db) k = some m'
      ∧ m'.status = "resolved"
      ∧ m'.detected_via_providers = true
      ∧ m'.last_provider_check = today
      ∧ m'.digital_detected_date = some today
      ∧ m'.has_providers_previously = some true := by
  refine ⟨providerCheckMovie (pf k) today m, ?_, ?_⟩
  · rw [check_providers_for_tracking_movies,
      findMovie_mapUpdate
        (fun k m => if m.status = "tracking" then providerCheckMovie (pf k) today m else m)
      db k, hfind]
    simp [htrack]
  · unfold providerCheckMovie
    simp [hprov, hflag]

/-- Witness for C4, running the two-run scenario: a tracking title sees an
empty provider snapshot on run 1 and a non-empty `stream: ["ServiceX"]`
snapshot on run 2, and run 2 resolves it via providers. -/
theorem C4_resolved_via_providers_witness :
    ∃ m', findMovie
        (check_providers_for_tracking_movies (fun _ => ⟨[], [], ["ServiceX"]⟩) "2024-03-08"
          (check_providers_for_tracking_movies (fun _ => ⟨[], [], []⟩) "2024-03-01"
            [("42", sampleTracking)]))
        "42" = some m'
      ∧ m'.status = "resolved"
      ∧ m'.detected_via_providers = true
      ∧ m'.last_provider_check = "2024-03-08"
      ∧ m'.digital_detected_date = some "2024-03-08"
      ∧ m'.has_providers_previously = some true :=
  C4_resolved_via_providers (fun _ => ⟨[], [], ["ServiceX"]⟩) "2024-03-08"
    (check_providers_for_tracking_movies (fun _ => ⟨[], [], []⟩) "2024-03-01"
      [("42", sampleTracking)])
    "42" (providerCheckMovie ⟨[], [], []⟩ "2024-03-01" sampleTracking)
    (by rfl) (by rfl) (by rfl) (by rfl)

/-! ### Idempotence of the merge (C5) -/

/-- Whether the merge loop would insert a discovered movie: its release
fetch succeeded and reports a truthy earliest release. -/
def insertable (f : Fetch) (m : DiscoveredMovie) : Bool :=
  match f.rel m.id with
  | some ri => pyTruthy ri.earliest_release
  | none => false

/-- The derived stats recomputed by `save_database`
(src/movie_tracker_enhanced.py lines 49-56). -/
structure Stats where
  total_tracked : Nat
  resolved : Nat
  still_tracking : Nat
  provider_detected : Nat
deriving Repr, DecidableEq

/-- Embedding of the stats block of `save_database`. -/
def save_database_stats (db : Store) : Stats :=
  { total_tracked := db.length
    resolved := (db.filter fun kv => kv.2.status = "resolved").length
    still_tracking := (db.filter fun kv => kv.2.status = "tracking").length
    provider_detected := (db.filter fun kv => kv.2.detected_via_providers).length }

theorem addStep_of_present {db : Store} {m : DiscoveredMovie}
    (f : Fetch) (today : String) (h : (findMovie db (toString m.id)).isSome) :
    addStep f today db m = db := by
  unfold addStep
  simp [h]

theorem addStep_of_not_insertable {db : Store} {m : DiscoveredMovie}
    (f : Fetch) (today : String) (h : insertable f m = false) :
    addStep f today db m = db := by
  unfold addStep
  unfold insertable at h
  by_cases hp : (findMovie db (toString m.id)).isSome
  · simp [hp]
  · cases hrel : f.rel m.id with
    | none => simp [hp, hrel]
    | some ri =>
      rw [hrel] at h
      have h' : pyTruthy ri.earliest_release = false := h
      simp [hp, hrel, h']

theorem foldl_addStep_isSome {k : String}
    (f : Fetch) (today : String) (l : List DiscoveredMovie) {db : Store}
    (h : (findMovie db k).isSome) :
    (findMovie (l.foldl (addStep f today) db) k).isSome := by
  obtain ⟨v, hv⟩ := Option.isSome_iff_exists.mp h
  exact Option.isSome_iff_exists.mpr ⟨v, foldl_addStep_preserves f today l hv⟩

theorem foldl_addStep_inserts (f : Fetch) (today : String)
    (l : List DiscoveredMovie) :
    ∀ {db : Store}, ∀ m ∈ l, insertable f m = true →
      (findMovie (l.foldl (addStep f today) db) (toString m.id)).isSome := by
  induction l with
  | nil => intro db m hm; simp at hm
  | cons m0 ms ih =>
    intro db m hm hins
    rcases List.mem_cons.mp hm with rfl | hm'
    · have hstep : (findMovie (addStep f today db m) (toString m.id)).isSome := by
        by_cases hp : (findMovie db (toString m.id)).isSome
        · rw [addStep_of_present f today hp]; exact hp
        · have hnone : findMovie db (toString m.id) = none :=
            Option.not_isSome_iff_eq_none.mp hp
          unfold addStep insertable at *
          cases hrel : f.rel m.id with
          | none => rw [hrel] at hins; simp at hins
          | some ri =>
            rw [hrel] at hins
            have hins' : pyTruthy ri.earliest_release = true := hins
            simp only [hp, if_false, hrel, hins', if_true, Bool.false_eq_true]
            rw [findMovie_append_self _ hnone]
            rfl
      exact foldl_addStep_isSome f today ms hstep
    · exact ih _ hm' hins

theorem foldl_addStep_noop (f : Fetch) (today : String)
    (l : List DiscoveredMovie) (db : Store)
    (h : ∀ m ∈ l, addStep f today db m = db) :
    l.foldl (addStep f today) db = db := by
  induction l with
  | nil => rfl
  | cons m0 ms ih =>
    simp only [List.foldl_cons, h m0 (List.mem_cons_self m0 ms)]
    exact ih fun m hm => h m (List.mem_cons_of_mem m0 hm)

theorem addStep_nodup {db : Store} {m : DiscoveredMovie}
    (f : Fetch) (today : String) (h : (db.map Prod.fst).Nodup) :
    ((addStep f today db m).map Prod.fst).Nodup := by
  unfold addStep
  by_cases hp : (findMovie db (toString m.id)).isSome
  · simpa [hp] using h
  · have hnone : findMovie db (toString m.id) = none :=
      Option.not_isSome_iff_eq_none.mp hp
    have hnotmem : toString m.id ∉ db.map Prod.fst := findMovie_eq_none_iff.mp hnone
    cases hrel : f.rel m.id with
    | none => simpa [hp, hrel] using h
    | some ri =>
      by_cases htr : pyTruthy ri.earliest_release
      · simp only [hp, if_false, hrel, htr, if_true, Bool.false_eq_true]
        rw [List.map_append]
        exact List.Nodup.append h (List.nodup_singleton _)
          (fun a ha hb => by simp at hb; subst hb; exact hnotmem ha)
      · simpa [hp, hrel, htr] using h

theorem foldl_addStep_nodup (f : Fetch) (today : String)
    (l : List DiscoveredMovie) :
    ∀ {db : Store}, (db.map Prod.fst).Nodup →
      ((l.foldl (addStep f today) db).map Prod.fst).Nodup := by
  induction l with
  | nil => intro db h; exact h
  | cons m0 ms ih =>
    intro db h
    exact ih (addStep_nodup f today h)

/-- C5: the tracking-store merge is idempotent.  Re-running
`add_new_releases` with fetch results identical to the first run leaves
the store exactly as after the first run; key uniqueness is preserved, so
no duplicate records are created for an already-present id; the derived
stats of the second save equal those of the first; and every
already-present record — in particular every resolved one — is left
byte-for-byte unchanged. -/
theorem C5_merge_idempotent (f : Fetch) (today : String)
    (movies : List DiscoveredMovie) (db : Store) :
    add_new_releases f today movies (add_new_releases f today movies db) =
      add_new_releases f today movies db
    ∧ ((db.map Prod.fst).Nodup →
        ((add_new_releases f today movies db).map Prod.fst).Nodup)
    ∧ save_database_stats
        (add_new_releases f today movies (add_new_releases f today movies db)) =
      save_database_stats (add_new_releases f today movies db)
    ∧ (∀ k m, findMovie db k = some m →
        findMovie (add_new_releases f today movies db) k = some m) := by
  have hidem :
      add_new_releases f today movies (add_new_releases f today movies db) =
        add_new_releases f today movies db := by
    unfold add_new_releases
    apply foldl_addStep_noop
    intro m hm
    by_cases hins : insertable f m
    · exact addStep_of_present f today (foldl_addStep_inserts f today _ m hm hins)
    · exact addStep_of_not_insertable f today (Bool.eq_false_iff.mpr hins)
  refine ⟨hidem, ?_, by rw [hidem], ?_⟩
  · intro h
    exact foldl_addStep_nodup f today _ h
  · intro k m hm
    exact foldl_addStep_preserves f today _ hm

/-- Witness for C5 at a concrete store and discovery list: one new title,
one already-present resolved record. -/
theorem C5_merge_idempotent_witness :
    add_new_releases sampleFetch "2024-03-01" [⟨7, "New Film"⟩]
        (add_new_releases sampleFetch "2024-03-01" [⟨7, "New Film"⟩]
          [("9", sampleResolved)]) =
      add_new_releases sampleFetch "2024-03-01" [⟨7, "New Film"⟩] [("9", sampleResolved)]
    ∧ ((add_new_releases sampleFetch "2024-03-01" [⟨7, "New Film"⟩]
        [("9", sampleResolved)]).map Prod.fst).Nodup
    ∧ findMovie
        (add_new_releases sampleFetch "2024-03-01" [⟨7, "New Film"⟩]
          [("9", sampleResolved)]) "9" = some sampleResolved :=
  ⟨(C5_merge_idempotent sampleFetch "2024-03-01" [⟨7, "New Film"⟩]
      [("9", sampleResolved)]).1,
   (C5_merge_idempotent sampleFetch "2024-03-01" [⟨7, "New Film"⟩]
      [("9", sampleResolved)]).2.1 (by decide),
   (C5_merge_idempotent sampleFetch "2024-03-01" [⟨7, "New Film"⟩]
      [("9", sampleResolved)]).2.2.2 "9" sampleResolved (by rfl)⟩

/-! ## Inclusion classifier (C6, C7)

Embedding of the per-movie tier decision inside `get_balanced_releases`
(src/new_release_wall_balanced.py lines 88-141).  The OMDb review lookup
`check_has_reviews` is a network call; it is passed in as a function from
`(title, year)` to its `(has_review, review_info)` return value.
`popularity` is a float in the source; it is modelled as an integer, on
which the two threshold comparisons and the `{:.1f}` formatting used in
the tier-2 reason are exact.
-/

/-- A raw discovery record, with the fields the classifier reads; a missing
`title` or `release_date` is the empty string (both are only tested for
truthiness), a missing `vote_count` or `popularity` defaults to 0. -/
structure RawMovie where
  title : String
  release_date : String
  vote_count : Nat
  popularity : Int
  original_language : Option String
deriving Repr, DecidableEq

/-- The `review_info` dict assembled by `check_has_reviews`
(src/new_release_wall_balanced.py lines 24-42). -/
structure ReviewInfo where
  metacritic : Option String
  rt_score : Option String
  imdb_votes : Option Nat
  imdb_rating : Option String
deriving Repr, DecidableEq

/-- The empty `review_data = {}` default. -/
def emptyReview : ReviewInfo := ⟨none, none, none, none⟩

/-- The tier-4 reason string: `" | ".join(parts)` over the RT, Metacritic
and IMDب-vote parts present (src/new_release_wall_balanced.py lines
119-126). -/
def reviewReason (ri : ReviewInfo) : String :=
  String.intercalate " | "
    ((match ri.rt_score with
      | some v => ["RT: " ++ v ++ "%"]
      | none => []) ++
     (match ri.metacritic with
      | some v => ["Meta: " ++ v]
      | none => []) ++
     (match ri.imdb_votes with
      | some n => ["IMDB: " ++ toString n ++ " votes"]
      | none => []))

/-- The `{popularity:.1f}` rendering for integer-valued popularity. -/
def fmtPop (p : Int) : String := toString p ++ ".0"

/-- `year = movie.get("release_date", "")[:4] if movie.get("release_date")
else None` (src/new_release_wall_balanced.py line 90). -/
def yearOf (m : RawMovie) : Option String :=
  if m.release_date ≠ "" then some (m.release_date.take 4) else none

/-- Embedding of the tier decision of `get_balanced_releases`
(src/new_release_wall_balanced.py lines 92-140): `some (reason,
review_data)` when the movie is included, `none` when excluded.  The tiers
are tried strictly in order — TMDB popularity (vote count at least 20),
trending (popularity at least 10), English with at least 3 votes, review
presence via the OMDb lookup, then the catch-all for records with a title
and a release date. -/
def balanced_include (check : String → Option String → Bool × ReviewInfo)
    (m : RawMovie) : Option (String × ReviewInfo) :=
  if m.vote_count ≥ 20 then
    some ("TMDB popular (" ++ toString m.vote_count ++ " votes)", emptyReview)
  else if m.popularity ≥ 10 then
    some ("Trending (pop: " ++ fmtPop m.popularity ++ ")", emptyReview)
  else if m.original_language = some "en" ∧ m.vote_count ≥ 3 then
    some ("English film (" ++ toString m.vote_count ++ " votes)", emptyReview)
  else if m.title ≠ "" then
    let res := check m.title (yearOf m)
    if res.1 then some (reviewReason res.2, res.2)
    else if m.title ≠ "" ∧ m.release_date ≠ "" then
      some ("Recent release", emptyReview)
    else none
  else none

theorem string_data_append (s t : String) : (s ++ t).data = s.data ++ t.data := by
  cases s
  cases t
  rfl

theorem string_append_left_ne {p₁ p₂ : String} (s₁ s₂ : String)
    (hlen : p₁.length = p₂.length) (hne : p₁ ≠ p₂) :
    p₁ ++ s₁ ≠ p₂ ++ s₂ := by
  intro h
  apply hne
  have hd := congrArg String.data h
  rw [string_data_append, string_data_append] at hd
  have hlen' : p₁.data.length = p₂.data.length := hlen
  have hpre := List.append_inj_left hd hlen'
  cases p₁
  cases p₂
  exact congrArg String.mk hpre

/-- C6: tiers are evaluated in fixed order with the first match winning.
A record satisfying both tier 1 (vote count at least 20) and tier 3
(English language, vote count at least 3) is included with the tier-1
reason `TMDB popular (...)`, which is never the tier-3 reason
`English film (...)`; and the review lookup of the later tier 4 is not
consulted — the decision is identical under any two lookup functions. -/
theorem C6_tier_order_first_match (check check' : String → Option String → Bool × ReviewInfo)
    (m : RawMovie) (h1 : 20 ≤ m.vote_count)
    (h3 : m.original_language = some "en" ∧ 3 ≤ m.vote_count) :
    balanced_include check m =
      some ("TMDB popular (" ++ toString m.vote_count ++ " votes)", emptyReview)
    ∧ ("TMDB popular (" ++ toString m.vote_count ++ " votes)" : String) ≠
        "English film (" ++ toString m.vote_count ++ " votes)"
    ∧ balanced_include check m = balanced_include check' m := by
  refine ⟨?_, ?_, ?_⟩
  · unfold balanced_include
    rw [if_pos h1]
  · rw [String.append_assoc, String.append_assoc]
    exact string_append_left_ne _ _ (by decide) (by decide)
  · unfold balanced_include
    rw [if_pos h1, if_pos h1]

/-- Witness for C6: vote count 25, English, release date present; the two
lookup functions disagree everywhere yet the decision is the same. -/
theorem C6_tier_order_first_match_witness :
    balanced_include (fun _ _ => (false, emptyReview))
        ⟨"Hit Film", "2024-06-01", 25, 5, some "en"⟩ =
      some ("TMDB popular (" ++ toString (25 : Nat) ++ " votes)", emptyReview)
    ∧ ("TMDB popular (" ++ toString (25 : Nat) ++ " votes)" : String) ≠
        "English film (" ++ toString (25 : Nat) ++ " votes)"
    ∧ balanced_include (fun _ _ => (false, emptyReview))
        ⟨"Hit Film", "2024-06-01", 25, 5, some "en"⟩ =
      balanced_include (fun _ _ => (true, ⟨some "80", none, none, none⟩))
        ⟨"Hit Film", "2024-06-01", 25, 5, some "en"⟩ :=
  C6_tier_order_first_match (fun _ _ => (false, emptyReview))
    (fun _ _ => (true, ⟨some "80", none, none, none⟩))
    ⟨"Hit Film", "2024-06-01", 25, 5, some "en"⟩
    (by decide) (by decide)

/-- C7: a record with a non-empty title and a non-empty release date that
matches no earlier tier — vote count below 20, popularity below 10, not
English-with-3-votes, review lookup reporting no signal — is included by
the catch-all tier with reason `Recent release`. -/
theorem C7_catch_all_tier (check : String → Option String → Bool × ReviewInfo)
    (m : RawMovie)
    (h1 : m.vote_count < 20) (h2 : m.popularity < 10)
    (h3 : ¬(m.original_language = some "en" ∧ 3 ≤ m.vote_count))
    (h4 : m.title ≠ "") (h5 : m.release_date ≠ "")
    (h6 : (check m.title (yearOf m)).1 = false) :
    balanced_include check m = some ("Recent release", emptyReview) := by
  unfold balanced_include
  rw [if_neg (by omega), if_neg (by omega), if_neg h3, if_pos h4]
  simp only [h6, Bool.false_eq_true, if_false]
  rw [if_pos ⟨h4, h5⟩]

/-- Witness for C7: the spec scenario — vote count 5, popularity 2,
language `fr`, no reviews found, title and release date present. -/
theorem C7_catch_all_tier_witness :
    balanced_include (fun _ _ => (false, emptyReview))
        ⟨"Le Film", "2024-06-01", 5, 2, some "fr"⟩ =
      some ("Recent release", emptyReview) :=
  C7_catch_all_tier (fun _ _ => (false, emptyReview))
    ⟨"Le Film", "2024-06-01", 5, 2, some "fr"⟩
    (by decide) (by decide) (by decide) (by decide) (by decide) (by decide)

/-! ## Date normalization (C8)

Embedding of `to_iso` (src/adapter.py lines 21-33).  The stdlib parsers
`datetime.fromisoformat` and `datetime.strptime(d, "%Y-%m-%d")` coincide
on the date-only `YYYY-MM-DD` strings this pipeline passes around; both
are modelled by `parseYMD`, a strict `YYYY-MM-DD` parser with calendar
validation.  A Python `datetime` argument is modelled as carrying its
`isoformat()` rendering; `datetime.utcnow().isoformat()` is the explicit
`nowIso` argument.
-/

/-- The argument of `to_iso`: a datetime object, a string, or anything
else (for example `None`). -/
inductive DateInput where
  | dt (iso : String)
  | str (s : String)
  | other
deriving Repr, DecidableEq

/-- Numeric value of a decimal digit character. -/
def digitVal (c : Char) : Nat := c.toNat - 48

/-- Days in a month of the proleptic Gregorian calendar, as validated by
the stdlib date constructor. -/
def daysInMonth (y m : Nat) : Nat :=
  if m = 2 then (if (y % 4 = 0 ∧ y % 100 ≠ 0) ∨ y % 400 = 0 then 29 else 28)
  else if m = 4 ∨ m = 6 ∨ m = 9 ∨ m = 11 then 30
  else 31

/-- Strict `YYYY-MM-DD` parser modelling both stdlib parse attempts of
`to_iso` on date-only strings: ten characters, digits and dashes in place,
month and day in calendar range, year at least 1. -/
def parseYMD (s : String) : Option (Nat × Nat × Nat) :=
  match s.data with
  | [y1, y2, y3, y4, c1, mo1, mo2, c2, d1, d2] =>
    if y1.isDigit ∧ y2.isDigit ∧ y3.isDigit ∧ y4.isDigit ∧ c1 = '-' ∧
        mo1.isDigit ∧ mo2.isDigit ∧ c2 = '-' ∧ d1.isDigit ∧ d2.isDigit then
      let y := ((digitVal y1 * 10 + digitVal y2) * 10 + digitVal y3) * 10 + digitVal y4
      let mo := digitVal mo1 * 10 + digitVal mo2
      let d := digitVal d1 * 10 + digitVal d2
      if 1 ≤ y ∧ 1 ≤ mo ∧ mo ≤ 12 ∧ 1 ≤ d ∧ d ≤ daysInMonth y mo then
        some (y, mo, d)
      else none
    else none
  | _ => none

/-- Zero-padding to two digits. -/
def pad2 (n : Nat) : String := if n < 10 then "0" ++ toString n else toString n

/-- Zero-padding to four digits. -/
def pad4 (n : Nat) : String :=
  if n < 10 then "000" ++ toString n
  else if n < 100 then "00" ++ toString n
  else if n < 1000 then "0" ++ toString n
  else toString n

/-- `datetime(y, m, d).isoformat()` for a date-only value. -/
def date_isoformat (d : Nat × Nat × Nat) : String :=
  pad4 d.1 ++ "-" ++ pad2 d.2.1 ++ "-" ++ pad2 d.2.2 ++ "T00:00:00"

/-- Embedding of `to_iso` (src/adapter.py lines 21-33): a datetime is
rendered as is; a string is parsed by `fromisoformat`, then by
`strptime("%Y-%m-%d")`, and if both fail the current time is returned;
any other value also yields the current time. -/
def to_iso (nowIso : String) : DateInput → String
  | .dt iso => iso
  | .str s =>
    match parseYMD s with
    | some d => date_isoformat d
    | none =>
      match parseYMD s with
      | some d => date_isoformat d
      | none => nowIso
  | .other => nowIso

/-- C8 counterexample, refuting both halves of the claim.  Release
Resolver half: a malformed non-empty date string is not dropped —
`get_release_info` on a type-4 entry with date `"banana"` keeps it
verbatim as the digital date and sets `has_digital`.  Normalizer half:
`to_iso` does not drop a malformed or missing date string — it returns
the current time for both, so the produced availability date is the
current time, not null or absent. -/
theorem C8_counterexample_malformed_not_dropped :
    (get_release_info (some [⟨"US", [⟨some 4, some "banana"⟩]⟩])).digital_date =
      some "banana"
    ∧ (get_release_info (some [⟨"US", [⟨some 4, some "banana"⟩]⟩])).has_digital = true
    ∧ (get_release_info (some [⟨"US", [⟨some 4, some "banana"⟩]⟩])).earliest_release =
      some "banana"
    ∧ to_iso "2025-10-12T08:30:00" (DateInput.str "not-a-date") = "2025-10-12T08:30:00"
    ∧ to_iso "2025-10-12T08:30:00" (DateInput.str "") = "2025-10-12T08:30:00"
    ∧ ("2025-10-12T08:30:00" : String) ≠ "" :=
  ⟨rfl, rfl, rfl, rfl, rfl, by decide⟩

theorem minD_mem : ∀ {l : List String} {d : String}, minD l = some d → d ∈ l := by
  intro l
  induction l with
  | nil => intro d h; simp [minD] at h
  | cons x xs ih =>
    intro d h
    rw [minD_cons] at h
    cases hx : minD xs with
    | none =>
      rw [hx] at h
      obtain rfl := Option.some_inj.mp h
      exact List.mem_cons_self x xs
    | some m =>
      rw [hx] at h
      obtain rfl := Option.some_inj.mp h
      rcases min_choice x m with hmin | hmin
      · rw [hmin]; exact List.mem_cons_self x xs
      · rw [hmin]; exact List.mem_cons_of_mem x (ih hx)

theorem mem_allDates {cs : List CountryEntry} {t : Nat} {d : String}
    (h : d ∈ allDates cs t) :
    ∃ c ∈ cs, ∃ r ∈ c.release_dates, entryDate r = d ∧ d ≠ "" := by
  simp only [allDates, List.mem_flatMap, List.mem_filterMap] at h
  obtain ⟨c, hc, r, hr, hf⟩ := h
  by_cases hcond : entryDate r ≠ "" ∧ r.type = some t
  · rw [if_pos hcond] at hf
    obtain rfl := Option.some_inj.mp hf
    exact ⟨c, hc, r, hr, rfl, hcond.1⟩
  · rw [if_neg hcond] at hf
    exact absurd hf (by simp)

theorem filterMap_filter_of_none {α β : Type} (p : α → Bool) (f : α → Option β)
    (hf : ∀ a, p a = false → f a = none) :
    ∀ l : List α, (l.filter p).filterMap f = l.filterMap f := by
  intro l
  induction l with
  | nil => rfl
  | cons a as ih =>
    by_cases h : p a = true
    · simp only [List.filter_cons, h, if_true, List.filterMap_cons, ih]
    · have hfa := hf a (Bool.eq_false_iff.mpr h)
      simp only [List.filter_cons, h, if_false, List.filterMap_cons, hfa, ih,
        Bool.false_eq_true]

theorem foldl_filter_of_id {α β : Type} (p : α → Bool) (step : β → α → β)
    (hstep : ∀ acc a, p a = false → step acc a = acc) :
    ∀ (l : List α) (acc : β), (l.filter p).foldl step acc = l.foldl step acc := by
  intro l
  induction l with
  | nil => intro acc; rfl
  | cons a as ih =>
    intro acc
    by_cases h : p a = true
    · simp only [List.filter_cons, h, if_true, List.foldl_cons, ih]
    · simp only [List.filter_cons, h, if_false, List.foldl_cons,
        hstep acc a (Bool.eq_false_iff.mpr h), ih, Bool.false_eq_true]

/-- Removal of empty-date entries from every country block. -/
def dropEmptyDates (cs : List CountryEntry) : List CountryEntry :=
  cs.map fun c => ⟨c.iso_3166_1, c.release_dates.filter fun r => entryDate r != ""⟩

theorem allDates_dropEmptyDates (cs : List CountryEntry) (t : Nat) :
    allDates (dropEmptyDates cs) t = allDates cs t := by
  induction cs with
  | nil => rfl
  | cons c rest ih =>
    show (List.filter _ c.release_dates).filterMap _ ++ allDates (dropEmptyDates rest) t = _
    rw [ih,
      filterMap_filter_of_none (fun r => entryDate r != "") _
        (fun r hr => by
          have : entryDate r = "" := by simpa using hr
          simp [this])]
    rfl

theorem typesFound_dropEmptyDates (cs : List CountryEntry) :
    typesFound (dropEmptyDates cs) = typesFound cs := by
  unfold typesFound dropEmptyDates
  rw [List.foldl_map]
  congr 1
  funext acc c
  exact foldl_filter_of_id (fun r => entryDate r != "") _
    (fun acc r hr => by
      have : entryDate r = "" := by simpa using hr
      cases htype : r.type <;> simp [this])
    c.release_dates acc

/-- C8 as amended: in the Release Resolver only empty (missing) date
strings are dropped — its output on any payload is unchanged when those
entries are removed — while a malformed non-empty date string is not
dropped but passed through verbatim: every date in the resolver's result
is the truncated date string of some payload entry, so the resolver never
defaults a date to the epoch or the current time; and the Normalizer does
not drop a malformed or missing availability date either: `to_iso`
defaults any string both parses reject to the current time. -/
theorem C8_amended_date_handling :
    (∀ cs : List CountryEntry,
      get_release_info (some cs) = get_release_info (some (dropEmptyDates cs)))
    ∧ (∀ (cs : List CountryEntry) (d : String),
        ((get_release_info (some cs)).premiere_date = some d ∨
         (get_release_info (some cs)).limited_date = some d ∨
         (get_release_info (some cs)).theatrical_date = some d ∨
         (get_release_info (some cs)).digital_date = some d ∨
         (get_release_info (some cs)).earliest_release = some d) →
        ∃ c ∈ cs, ∃ r ∈ c.release_dates, entryDate r = d ∧ d ≠ "")
    ∧ (∀ nowIso s, parseYMD s = none → to_iso nowIso (DateInput.str s) = nowIso) := by
  refine ⟨?_, ?_, ?_⟩
  · intro cs
    rw [get_release_info_some_def, get_release_info_some_def]
    rw [allDates_dropEmptyDates, allDates_dropEmptyDates, allDates_dropEmptyDates,
      allDates_dropEmptyDates, typesFound_dropEmptyDates]
  · intro cs d hd
    rcases hd with h | h | h | h | h
    · exact mem_allDates (minD_mem (show minD (allDates cs 1) = some d from h))
    · exact mem_allDates (minD_mem (show minD (allDates cs 2) = some d from h))
    · exact mem_allDates (minD_mem (show minD (allDates cs 3) = some d from h))
    · exact mem_allDates (minD_mem (show minD (allDates cs 4) = some d from h))
    · have hmem := minD_mem (show minD
        (allDates cs 1 ++ allDates cs 2 ++ allDates cs 3 ++ allDates cs 4) = some d from h)
      rcases List.mem_append.mp hmem with hmem' | hmem'
      · rcases List.mem_append.mp hmem' with hmem'' | hmem''
        · rcases List.mem_append.mp hmem'' with hmem''' | hmem'''
          · exact mem_allDates hmem'''
          · exact mem_allDates hmem'''
        · exact mem_allDates hmem''
      · exact mem_allDates hmem'
  · intro nowIso s h
    simp [to_iso, h]

/-- Witness for C8 as amended: a concrete payload with an empty-date
entry, the malformed `"banana"` date shown to come verbatim from the
payload, and a concrete unparsable string for the normalizer. -/
theorem C8_amended_date_handling_witness :
    (get_release_info (some [⟨"US", [⟨some 4, some "2024-02-10"⟩, ⟨some 3, some ""⟩]⟩]) =
      get_release_info (some (dropEmptyDates
        [⟨"US", [⟨some 4, some "2024-02-10"⟩, ⟨some 3, some ""⟩]⟩])))
    ∧ (∃ c ∈ [(⟨"US", [⟨some 4, some "banana"⟩]⟩ : CountryEntry)],
        ∃ r ∈ c.release_dates, entryDate r = "banana" ∧ ("banana" : String) ≠ "")
    ∧ to_iso "2025-01-01T00:00:00" (DateInput.str "oops") = "2025-01-01T00:00:00" :=
  ⟨C8_amended_date_handling.1 [⟨"US", [⟨some 4, some "2024-02-10"⟩, ⟨some 3, some ""⟩]⟩],
   C8_amended_date_handling.2.1 [⟨"US", [⟨some 4, some "banana"⟩]⟩] "banana"
     (Or.inr (Or.inr (Or.inr (Or.inl rfl)))),
   C8_amended_date_handling.2.2 "2025-01-01T00:00:00" "oops" rfl⟩

/-! ## HTTP retry behavior (C9)

Embeddings of `safe_json_get` (src/new_release_wall.py lines 8-17) and
`TMDB._req` (src/scraper_core.py lines 16-30).  The sequence of network
outcomes is an explicit function from the attempt index to a response;
sleep durations are recorded in tenths of a second, so `time.sleep(1.5 *
(i + 1))` contributes `15 * (i + 1)` and `DEFAULT_SLEEP = 0.1` contributes
`1`.
-/

/-- One network outcome: a connection-level failure (the `requests` call
itself raises) or an HTTP response with a status code and a JSON body. -/
inductive HttpResponse where
  | conn
  | http (status : Nat) (body : String)
deriving Repr, DecidableEq

/-- The exception raised by one attempt. -/
inductive HttpError where
  | connError
  | httpError (status : Nat)
  | transient (status : Nat)
deriving Repr, DecidableEq

/-- One attempt of `safe_json_get`: `requests.get` then
`raise_for_status()` (any status of 400 or above raises) then `.json()`. -/
def attemptGet : HttpResponse → Except HttpError String
  | .conn => .error .connError
  | .http st body => if 400 ≤ st then .error (.httpError st) else .ok body

/-- What the Python function call produces: a JSON value, the implicit
`None` when the loop body never runs, or a raised exception. -/
inductive PyResult where
  | val (j : String)
  | noneRet
  | exn (e : HttpError)
deriving Repr, DecidableEq

/-- The retry loop of `safe_json_get` from loop index `i` with `rem`
iterations left: on failure at the last index re-raise, otherwise sleep
`1.5 * (i + 1)` seconds and continue.  Returns the result and the list of
sleeps (tenths of a second). -/
def safe_json_get_aux (resp : Nat → HttpResponse) : Nat → Nat → PyResult × List Nat
  | _, 0 => (.noneRet, [])
  | i, rem + 1 =>
    match attemptGet (resp i) with
    | .ok j => (.val j, [])
    | .error e =>
      if rem = 0 then (.exn e, [])
      else
        ((safe_json_get_aux resp (i + 1) rem).1,
          15 * (i + 1) :: (safe_json_get_aux resp (i + 1) rem).2)

/-- Embedding of `safe_json_get` (src/new_release_wall.py lines 8-17). -/
def safe_json_get (resp : Nat → HttpResponse) (retries : Nat) : PyResult × List Nat :=
  safe_json_get_aux resp 0 retries

/-- `MAX_RETRIES = 3` (src/scraper_core.py line 5). -/
def MAX_RETRIES : Nat := 3

/-- `DEFAULT_SLEEP = 0.1`, in tenths of a second (src/scraper_core.py
line 4). -/
def DEFAULT_SLEEP_TENTHS : Nat := 1

/-- One attempt of `TMDB._req`: statuses 429/500/502/503/504 raise the
explicit transient `RuntimeError`, any other status of 400 or above raises
through `raise_for_status()`, otherwise the JSON body is returned. -/
def attemptReq : HttpResponse → Except HttpError String
  | .conn => .error .connError
  | .http st body =>
    if st = 429 ∨ st = 500 ∨ st = 502 ∨ st = 503 ∨ st = 504 then
      .error (.transient st)
    else if 400 ≤ st then .error (.httpError st)
    else .ok body

/-- Outcome of `TMDB._req`: the JSON value, or the final `RuntimeError`
wrapping the last per-attempt error. -/
inductive ReqResult where
  | val (j : String)
  | failedAfterRetries (last : Option HttpError)
deriving Repr, DecidableEq

/-- The retry loop of `TMDB._req` from attempt number `attempt` with `rem`
attempts left, carrying `last_err`: success sleeps `DEFAULT_SLEEP` and
returns; failure sleeps `DEFAULT_SLEEP * attempt` unless this was the last
attempt; an exhausted loop raises the final `RuntimeError`. -/
def req_aux (resp : Nat → HttpResponse) : Nat → Nat → Option HttpError → ReqResult × List Nat
  | _, 0, last => (.failedAfterRetries last, [])
  | attempt, rem + 1, _ =>
    match attemptReq (resp attempt) with
    | .ok j => (.val j, [DEFAULT_SLEEP_TENTHS])
    | .error e =>
      ((req_aux resp (attempt + 1) rem (some e)).1,
        (if rem = 0 then [] else [DEFAULT_SLEEP_TENTHS * attempt]) ++
          (req_aux resp (attempt + 1) rem (some e)).2)

/-- Embedding of `TMDB._req` (src/scraper_core.py lines 16-30): attempts
run from 1 to `MAX_RETRIES`. -/
def tmdb_req (resp : Nat → HttpResponse) : ReqResult × List Nat :=
  req_aux resp 1 MAX_RETRIES none

/-- C9 counterexample: a not-found (404) response is retried — both retry
loops sleep and try again on it, exactly as for transient errors — and
after the budget it is surfaced as an error, not treated as empty data. -/
theorem C9_counterexample_notfound_is_retried :
    safe_json_get (fun _ => .http 404 "{}") 3 = (.exn (.httpError 404), [15, 30])
    ∧ tmdb_req (fun _ => .http 404 "{}") =
        (.failedAfterRetries (some (.httpError 404)), [1, 2])
    ∧ ([15, 30] : List Nat) ≠ [] :=
  ⟨rfl, rfl, by decide⟩

/-- C9 as amended: every failing attempt — transient, not-found or
connection error alike — is retried up to the fixed budget with linear
backoff (`1.5 * (i + 1)` seconds in `safe_json_get`, `0.1 * attempt` in
`TMDB._req`), and once the budget is exhausted the last error is raised to
the caller; not-found is not distinguished from transient errors and is
never converted to empty data by these helpers. -/
theorem C9_amended_retry_budget :
    (∀ (resp : Nat → HttpResponse) (es : Nat → HttpError) (retries : Nat),
      0 < retries →
      (∀ i, i < retries → attemptGet (resp i) = .error (es i)) →
      safe_json_get resp retries =
        (.exn (es (retries - 1)),
          (List.range (retries - 1)).map fun i => 15 * (i + 1)))
    ∧ (∀ (resp : Nat → HttpResponse) (es : Nat → HttpError),
      (∀ a, 1 ≤ a → a ≤ 3 → attemptReq (resp a) = .error (es a)) →
      tmdb_req resp = (.failedAfterRetries (some (es 3)), [1, 2])) := by
  constructor
  · intro resp es retries hpos hfail
    suffices haux : ∀ rem i, 0 < rem → (∀ j, j < rem → attemptGet (resp (i + j)) = .error (es (i + j))) →
        safe_json_get_aux resp i rem =
          (.exn (es (i + rem - 1)), (List.range (rem - 1)).map fun j => 15 * (i + j + 1)) by
      have h := haux retries 0 hpos (fun j hj => by simpa using hfail j hj)
      simpa [safe_json_get] using h
    intro rem
    induction rem with
    | zero => intro i h0; omega
    | succ rem ih =>
      intro i _ hfail'
      have h0 := hfail' 0 (Nat.succ_pos rem)
      rw [Nat.add_zero] at h0
      show safe_json_get_aux resp i (rem + 1) = _
      unfold safe_json_get_aux
      rw [h0]
      cases rem with
      | zero => simp
      | succ s =>
        have hr := ih (i + 1) (Nat.succ_pos s)
          (fun j hj => by
            have := hfail' (j + 1) (by omega)
            simpa [Nat.add_assoc, Nat.add_comm 1 j] using this)
        show ((safe_json_get_aux resp (i + 1) (s + 1)).1,
            15 * (i + 1) :: (safe_json_get_aux resp (i + 1) (s + 1)).2) = _
        rw [hr]
        refine congrArg₂ Prod.mk ?_ ?_
        · exact congrArg (fun n => PyResult.exn (es n)) (by omega)
        · show 15 * (i + 1) ::
              (List.range (s + 1 - 1)).map (fun j => 15 * (i + 1 + j + 1)) =
            (List.range (s + 1 + 1 - 1)).map fun j => 15 * (i + j + 1)
          simp only [Nat.add_sub_cancel]
          rw [List.range_succ_eq_map, List.map_cons, List.map_map]
          refine congrArg₂ List.cons (by ring) ?_
          refine List.map_congr_left fun j hj => ?_
          simp only [Function.comp]
          omega
  · intro resp es hfail
    have h1 := hfail 1 (by omega) (by omega)
    have h2 := hfail 2 (by omega) (by omega)
    have h3 := hfail 3 (by omega) (by omega)
    show req_aux resp 1 MAX_RETRIES none = _
    rw [MAX_RETRIES]
    show req_aux resp 1 (2 + 1) none = _
    unfold req_aux
    rw [h1]
    show (_, _ ++ (req_aux resp 2 (1 + 1) (some (es 1))).2) = _
    unfold req_aux
    rw [h2]
    show (_, _ ++ (_ ++ (req_aux resp 3 (0 + 1) (some (es 2))).2)) = _
    unfold req_aux
    rw [h3]
    simp only [DEFAULT_SLEEP_TENTHS]
    exact Prod.ext rfl rfl

/-- Witness for C9 as amended: connection failures on every attempt, with
a budget of 2 for `safe_json_get`; the error is surfaced and the linear
backoff schedule is produced. -/
theorem C9_amended_retry_budget_witness :
    safe_json_get (fun _ => HttpResponse.conn) 2 = (.exn .connError, [15])
    ∧ tmdb_req (fun _ => HttpResponse.conn) =
        (.failedAfterRetries (some .connError), [1, 2]) := by
  constructor
  · have h := C9_amended_retry_budget.1 (fun _ => HttpResponse.conn)
      (fun _ => HttpError.connError) 2 (by omega) (fun i _ => rfl)
    simpa using h
  · exact C9_amended_retry_budget.2 (fun _ => HttpResponse.conn)
      (fun _ => HttpError.connError) (fun a _ _ => rfl)

/-! ## Moderation curate endpoint (C10)

Embedding of the `curate` route handler (src/curator_admin.py lines
221-230) on the curated-selections JSON object, modelled as an association
list with Python dict assignment semantics: updating an existing key keeps
its position, a new key is appended. -/

/-- The curated-selections map, id string to action string. -/
abbrev Curated := List (String × String)

/-- Python dict lookup. -/
def lookupCur : Curated → String → Option String
  | [], _ => none
  | (k, v) :: rest, key => if k = key then some v else lookupCur rest key

/-- Python dict assignment `cur[k] = v`. -/
def dictSet : Curated → String → String → Curated
  | [], k, v => [(k, v)]
  | (k', v') :: rest, k, v =>
    if k' = k then (k, v) :: rest else (k', v') :: dictSet rest k v

/-- Embedding of the state change of the `curate` route
(src/curator_admin.py lines 221-230): `cur[str(mid)] = action` on the
loaded map, which is then saved verbatim. -/
def curate (cur : Curated) (mid : Nat) (action : String) : Curated :=
  dictSet cur (toString mid) action

theorem lookupCur_dictSet_self (cur : Curated) (k v : String) :
    lookupCur (dictSet cur k v) k = some v := by
  induction cur with
  | nil => simp [dictSet, lookupCur]
  | cons kv rest ih =>
    obtain ⟨k', v'⟩ := kv
    by_cases h : k' = k
    · simp [dictSet, h, lookupCur]
    · simp [dictSet, h, lookupCur, ih]

theorem lookupCur_dictSet_other (cur : Curated) (k v k₂ : String) (h : k₂ ≠ k) :
    lookupCur (dictSet cur k v) k₂ = lookupCur cur k₂ := by
  induction cur with
  | nil => simp [dictSet, lookupCur, Ne.symm h]
  | cons kv rest ih =>
    obtain ⟨k', v'⟩ := kv
    by_cases hk : k' = k
    · subst hk
      simp [dictSet, lookupCur, Ne.symm h]
    · simp [dictSet, hk, lookupCur, ih]

/-- C10: the curate operation binds exactly the key `str(mid)` to the
supplied action string, stored verbatim for any string whatsoever — the
handler performs no validation against `pending`, `approve`, `reject` —
and every other key keeps its previous value. -/
theorem C10_curate_frame (cur : Curated) (mid : Nat) (action : String) :
    lookupCur (curate cur mid action) (toString mid) = some action
    ∧ ∀ k, k ≠ toString mid → lookupCur (curate cur mid action) k = lookupCur cur k := by
  refine ⟨lookupCur_dictSet_self cur _ action, ?_⟩
  intro k hk
  exact lookupCur_dictSet_other cur _ action k hk

/-- Witness for C10: id 5 is bound to the non-canonical action string
`"banana"`, while the existing decision for id 3 is untouched. -/
theorem C10_curate_frame_witness :
    lookupCur (curate [("3", "approve")] 5 "banana") (toString (5 : Nat)) = some "banana"
    ∧ lookupCur (curate [("3", "approve")] 5 "banana") "3" =
        lookupCur [("3", "approve")] "3" :=
  ⟨(C10_curate_frame [("3", "approve")] 5 "banana").1,
   (C10_curate_frame [("3", "approve")] 5 "banana").2 "3" (by decide)⟩

end NRW
